import Mathlib

/-!
Shallow embedding of the microAO adaptive-optics algorithms from
`microAO/aoAlg.py` (class `AdaptiveOpticsFunctions`) and
`microAO/aoDev.py` (class `AdaptiveOpticsDevice`).

Conventions used throughout:
* Real-valued numpy data is modelled over `ℚ`; machine floats are not
  modelled, so every comparison below is the exact-arithmetic reading of
  the corresponding float comparison in the source.
* Opaque numerical kernels that the verified claims do not depend on
  (2-D FFTs, `scipy.ndimage` centroids, `numpy.linalg.pinv`, square
  roots and logarithms of measured data) are passed in as explicit
  function parameters, so each embedded operation is a function of the
  same inputs the Python code consumes.
* A numpy boolean array under arithmetic is modelled as its int cast
  (False ↦ 0, True ↦ 1), matching numpy value semantics.
* Python exceptions are modelled with `Except`; a raised exception is
  an `Except.error` carrying the message of the raised object.
-/

deriving instance DecidableEq for Except

namespace MicroAO

/-- Exact reading of the float comparison `math.sqrt d2 < r` performed by the
numpy expressions `np.sqrt(...) < radius`: for `d2 ≥ 0` (always the case for a
sum of squares) it holds iff `0 < r ∧ d2 < r * r`. -/
def sqrtLtQ (d2 r : ℚ) : Bool := decide (0 < r ∧ d2 < r * r)

/-- Squared Euclidean distance of pixel `(i, j)` from the pixel whose
`np.arange(-radius, radius)` entry is `0`, i.e. index `radius`:
`arange(-radius, radius)[i] = i - radius`. -/
def dist2Q (radius i j : ℕ) : ℚ := ((i : ℚ) - radius) ^ 2 + ((j : ℚ) - radius) ^ 2

/-- aoAlg.py, `make_mask` (lines 54-57):
`mask = np.sqrt((np.arange(-radius,radius)**2).reshape((diameter,1)) +
(np.arange(-radius,radius)**2)) < radius`, a `2*radius × 2*radius` boolean
grid whose `(i, j)` entry is `sqrt((i-radius)^2 + (j-radius)^2) < radius`. -/
def make_mask (radius : ℕ) : List (List Bool) :=
  (List.range (2 * radius)).map (fun i =>
    (List.range (2 * radius)).map (fun j => sqrtLtQ (dist2Q radius i j) radius))

/-- Total 2-D getter for a boolean grid (out-of-range reads default to
`false`; all verified statements restrict indices to the grid). -/
def maskGet (m : List (List Bool)) (i j : ℕ) : Bool := (m.getD i []).getD j false

/-- Total 2-D getter for an integer grid (out-of-range reads default to `0`). -/
def ringGet (m : List (List ℤ)) (i j : ℕ) : ℤ := (m.getD i []).getD j 0

/-- aoAlg.py, `make_ring_mask` (lines 341-351).  `radius = int(size[0]/2)`;
`outer_mask = sqrt(dist2) < outer_rad`; `inner_mask_neg = sqrt(dist2) < inner_rad`;
`inner_mask = (inner_mask_neg - 1) * -1`; `ring_mask = outer_mask * inner_mask`.
Booleans under numpy arithmetic are their 0/1 int casts, so each entry is the
product below.  `size` is the first component `size[0]` of the shape tuple. -/
def make_ring_mask (size : ℕ) (inner_rad outer_rad : ℚ) : List (List ℤ) :=
  let radius := size / 2
  (List.range (2 * radius)).map (fun i =>
    (List.range (2 * radius)).map (fun j =>
      (if sqrtLtQ (dist2Q radius i j) outer_rad then (1 : ℤ) else 0) *
      (((if sqrtLtQ (dist2Q radius i j) inner_rad then (1 : ℤ) else 0) - 1) * (-1))))

/-! ### Vector and actuator-command helpers -/

/-- Dot product of two rational vectors (`np.dot` on matching 1-D data). -/
def dotQ (xs ys : List ℚ) : ℚ := (List.zipWith (· * ·) xs ys).sum

/-- aoDev.py, `send` (lines 122-129): before a pattern reaches the mirror it
is clamped into [0,1] in place: `values[values > 1.0] = 1.0;
values[values < 0.0] = 0.0`.  The mutation affects the caller's array. -/
def clamp01 (x : ℚ) : ℚ := if 1 < x then 1 else if x < 0 then 0 else x

/-- The in-place clamping `send` applies to the vector it is handed. -/
def send_clamp (v : List ℚ) : List ℚ := v.map clamp01

/-- numpy `np.pad(v, (0, padLen), 'constant')`: a negative pad width raises
`ValueError: index cannot contain negative values` (message paraphrased
without the apostrophe). -/
def np_pad_right (v : List ℚ) (padLen : ℤ) : Except String (List ℚ) :=
  if padLen < 0 then Except.error "ValueError: index cannot contain negative values"
  else Except.ok (v ++ List.replicate padLen.toNat 0)

/-- Final part of aoAlg.py `ac_pos_from_zernike` (lines 332-339):
`actuator_pos = np.dot(self.controlMatrix, applied_z_modes)`, then
`assert len(actuator_pos) == numActuators`, whose failure is re-raised as a
bare `Exception`. -/
def acDotCheck (controlMatrix : List (List ℚ)) (v : List ℚ) (numActuators : ℕ) :
    Except String (List ℚ) :=
  let actuator_pos := controlMatrix.map (fun row => dotQ row v)
  if actuator_pos.length = numActuators then Except.ok actuator_pos
  else Except.error "Exception"

/-- aoAlg.py, `ac_pos_from_zernike` (lines 323-339).  When the modal vector is
shorter than the control-matrix mode dimension the source computes
`pad_length = int(np.shape(applied_z_modes)[0]) - int(np.shape(self.controlMatrix)[1])`
— a NEGATIVE number in that branch — and evaluates
`np.pad(applied_z_modes, (0, pad_length), 'constant')` without assigning the
result: `np.pad` raises ValueError on the negative width (and even absent
that, the unpadded vector would be the one multiplied).  A longer vector is
truncated to the mode dimension; an equal-length vector is used as is. -/
def ac_pos_from_zernike (controlMatrix : List (List ℚ)) (applied_z_modes : List ℚ)
    (numActuators : ℕ) : Except String (List ℚ) :=
  let cols := (controlMatrix.headD []).length
  if applied_z_modes.length < cols then
    match np_pad_right applied_z_modes ((applied_z_modes.length : ℤ) - (cols : ℤ)) with
    | Except.error e => Except.error e
    | Except.ok _ => acDotCheck controlMatrix applied_z_modes numActuators
  else if cols < applied_z_modes.length then
    acDotCheck controlMatrix (applied_z_modes.take cols) numActuators
  else acDotCheck controlMatrix applied_z_modes numActuators

/-- Refinement reference for claim C1, following the specification's words
(spec §4.6, §8): conform the modal vector to the control-matrix mode
dimension by truncation or right zero-padding, then multiply. -/
def ac_pos_from_zernike_spec (controlMatrix : List (List ℚ))
    (applied_z_modes : List ℚ) : List ℚ :=
  let cols := (controlMatrix.headD []).length
  let v := if cols < applied_z_modes.length then applied_z_modes.take cols
           else applied_z_modes ++ List.replicate (cols - applied_z_modes.length) 0
  controlMatrix.map (fun row => dotQ row v)

/-- aoDev.py, `set_phase` (lines 503-512): `actuator_pos = -1.0 *
aoAlg.ac_pos_from_zernike(applied_z_modes, self.numActuators)`, plus the
offset vector (0.5 everywhere when none is given — the flatten loop always
passes one), then `send` clamps the array in place and the clamped array is
returned. -/
def set_phase (controlMatrix : List (List ℚ)) (numActuators : ℕ)
    (applied_z_modes offset : List ℚ) : Except String (List ℚ) :=
  match ac_pos_from_zernike controlMatrix applied_z_modes numActuators with
  | Except.error e => Except.error e
  | Except.ok pos => Except.ok (send_clamp (List.zipWith (fun a b => -a + b) pos offset))

/-! ### Closed-loop corrector (aoDev.py `flatten_phase`) -/

/-- Loop state of aoDev.py `flatten_phase` (lines 466-498): the retained best
actuator vector, best modal amplitudes and best RMS error. -/
structure FlattenS where
  best_flat : List ℚ
  best_z : List ℚ
  best_rms : ℚ
  deriving DecidableEq

/-- flatten_phase initial state (lines 466-476): `best_flat_actuators =
np.zeros(numActuators) + 0.5` (immediately sent, which clamps it in place),
`best_z_amps = np.zeros(nzernike)` with `nzernike` the control-matrix mode
dimension, and the RMS error of the initial uncorrected measurement. -/
def flattenInit (controlMatrix : List (List ℚ)) (numActuators : ℕ)
    (init_rms : ℚ) : FlattenS :=
  { best_flat := send_clamp (List.replicate numActuators (1/2 : ℚ))
    best_z := List.replicate (controlMatrix.headD []).length 0
    best_rms := init_rms }

/-- One iteration of the flatten_phase loop (lines 478-498).  The iteration's
measurement is abstracted as the pair `meas = (z_amps, rms_error)` computed
from the acquired interferogram; the vector sent to the mirror is
`set_phase(z_amps * z_modes_ignore, offset = best_flat_actuators)`.  The
comparison is the source's `if rms_error < best / elif rms_error > best /
else`: the equality branch executes
`best_flat_actuators[:] = np.copy(flat_actuators)` while leaving
`best_rms_error` and `best_z_amps` unchanged. -/
def flatten_step (controlMatrix : List (List ℚ)) (numActuators : ℕ)
    (z_modes_ignore : List ℚ) (meas : List ℚ × ℚ) (s : FlattenS) :
    Except String FlattenS :=
  let z_amps := List.zipWith (· * ·) meas.1 z_modes_ignore
  match set_phase controlMatrix numActuators z_amps s.best_flat with
  | Except.error e => Except.error e
  | Except.ok flat_actuators =>
    Except.ok
      (if meas.2 < s.best_rms then
        { best_flat := flat_actuators, best_z := z_amps, best_rms := meas.2 }
      else if s.best_rms < meas.2 then s
      else { s with best_flat := flat_actuators })

/-- The `for ii in range(iterations)` loop of lines 478-498, iterated over
the trace of per-iteration measurements. -/
def flatten_loop (controlMatrix : List (List ℚ)) (numActuators : ℕ)
    (z_modes_ignore : List ℚ) : List (List ℚ × ℚ) → FlattenS → Except String FlattenS
  | [], s => Except.ok s
  | m :: rest, s =>
    match flatten_step controlMatrix numActuators z_modes_ignore m s with
    | Except.error e => Except.error e
    | Except.ok s2 => flatten_loop controlMatrix numActuators z_modes_ignore rest s2

/-- aoDev.py, `flatten_phase` (lines 434-501), with the per-iteration
measurements supplied as the trace `meas` (its length is the iteration
budget) and the initial uncorrected RMS as `init_rms`.  After the loop the
retained best vector is handed to `send` — which clamps it in place — and
that array is returned (lines 500-501). -/
def flatten_phase (controlMatrix : List (List ℚ)) (numActuators : ℕ)
    (z_modes_ignore : List ℚ) (init_rms : ℚ) (meas : List (List ℚ × ℚ)) :
    Except String (List ℚ) :=
  match flatten_loop controlMatrix numActuators z_modes_ignore meas
      (flattenInit controlMatrix numActuators init_rms) with
  | Except.error e => Except.error e
  | Except.ok s => Except.ok (send_clamp s.best_flat)

/-! ### Control-matrix calibration (aoAlg.py `create_control_matrix`) -/

/-- Ordinary least-squares slope of `scipy.stats.linregress(xs, ys)`:
`(n·Σxy − Σx·Σy) / (n·Σx² − (Σx)²)`.  (Division by zero yields 0 in ℚ; the
verified call sites always pass at least two distinct x values.) -/
def linregressSlope (xs ys : List ℚ) : ℚ :=
  let n : ℚ := xs.length
  (n * (List.zipWith (· * ·) xs ys).sum - xs.sum * ys.sum) /
    (n * (xs.map (fun x => x * x)).sum - xs.sum * xs.sum)

/-- Ordinary least-squares intercept of `scipy.stats.linregress(xs, ys)`:
`(Σy − slope·Σx) / n`. -/
def linregressIntercept (xs ys : List ℚ) : ℚ :=
  (ys.sum - linregressSlope xs ys * xs.sum) / (xs.length : ℚ)

/-- Poke samples retained for actuator `ii` in `create_control_matrix`
(lines 276-295): step `jj` contributes `(pokeSteps[jj], modal amplitudes)`
when the unwrap of image `ii*numPokeSteps + jj` passed the discontinuity
test of lines 282-284; the per-image phase unwrap, discontinuity count and
modal decomposition are abstracted by `meas`, which returns `none` exactly
for a discarded frame. -/
def actuatorRetained (pokeSteps : List ℚ) (meas : ℕ → Option (List ℚ)) (ii : ℕ) :
    List (ℚ × List ℚ) :=
  (List.range pokeSteps.length).filterMap (fun jj =>
    (meas (ii * pokeSteps.length + jj)).map (fun amps => (pokeSteps.getD jj 0, amps)))

/-- The exception message of aoAlg.py lines 299-300; it names actuator
`ii + 1` (the loop index is 0-based, the message 1-based). -/
def ccmErrMsg (ii : ℕ) : String :=
  "Not enough Zernike mode values to calculate slope for actuator " ++
    toString (ii + 1) ++ ". Control matrix calculation will fail"

/-- Response-matrix column for one actuator (lines 305-313): per mode `kk`,
the linregress slope of modal amplitude against poke value. -/
def ccmColumn (noZernikeModes : ℕ) (retained : List (ℚ × List ℚ)) : List ℚ :=
  (List.range noZernikeModes).map (fun kk =>
    linregressSlope (retained.map Prod.fst) (retained.map (fun p => p.2.getD kk 0)))

/-- The actuator loop of `create_control_matrix` (lines 274-317), processing
`cnt` actuators starting at index `start` and collecting the per-actuator
response columns.  An actuator outside the pupil contributes its untouched
all-zero column (line 264 initialises `C_mat` to zeros); an included actuator
with fewer than two retained samples raises the exception of lines 299-300,
aborting the whole loop. -/
def ccmGo (noZernikeModes : ℕ) (pokeSteps : List ℚ) (pupil_ac : List ℚ)
    (meas : ℕ → Option (List ℚ)) : ℕ → ℕ → Except String (List (List ℚ))
  | _, 0 => Except.ok []
  | start, cnt + 1 =>
    if pupil_ac.getD start 0 = 1 then
      if (actuatorRetained pokeSteps meas start).length < 2 then
        Except.error (ccmErrMsg start)
      else
        match ccmGo noZernikeModes pokeSteps pupil_ac meas (start + 1) cnt with
        | Except.error e => Except.error e
        | Except.ok cs =>
          Except.ok (ccmColumn noZernikeModes (actuatorRetained pokeSteps meas start) :: cs)
    else
      match ccmGo noZernikeModes pokeSteps pupil_ac meas (start + 1) cnt with
      | Except.error e => Except.error e
      | Except.ok cs => Except.ok (List.replicate noZernikeModes 0 :: cs)

/-- Reassemble `C_mat` from its per-actuator columns:
`C_mat[kk][ii] = columns[ii][kk]`. -/
def ccmAssemble (noZernikeModes : ℕ) (columns : List (List ℚ)) : List (List ℚ) :=
  (List.range noZernikeModes).map (fun kk => columns.map (fun c => c.getD kk 0))

/-- aoAlg.py, `create_control_matrix` (lines 246-321): run the actuator loop,
then `self.controlMatrix = np.linalg.pinv(C_mat, rcond=threshold)`; the
regularized pseudo-inverse of line 319 is abstracted by `pinv`. -/
def create_control_matrix (pinv : List (List ℚ) → List (List ℚ))
    (numActuators noZernikeModes : ℕ) (pokeSteps : List ℚ) (pupil_ac : List ℚ)
    (meas : ℕ → Option (List ℚ)) : Except String (List (List ℚ)) :=
  match ccmGo noZernikeModes pokeSteps pupil_ac meas 0 numActuators with
  | Except.error e => Except.error e
  | Except.ok columns => Except.ok (pinv (ccmAssemble noZernikeModes columns))

/-! ### Shared algorithm context (aoAlg.py `AdaptiveOpticsFunctions`) -/

/-- The mutable fields initialised in aoAlg.py lines 32-36. -/
structure AlgState where
  mask : Option (List (List Bool))
  fft_filter : Option (List (List ℚ))
  controlMatrix : Option (List (List ℚ))
  OTF_ring_mask : Option (List (List ℤ))
  deriving DecidableEq

/-- The `self.controlMatrix = np.linalg.pinv(...)` assignment of line 319
runs only after the actuator loop completes, so on the loop's exception the
context is untouched and no matrix is stored. -/
def create_control_matrix_state (st : AlgState)
    (pinv : List (List ℚ) → List (List ℚ)) (numActuators noZernikeModes : ℕ)
    (pokeSteps : List ℚ) (pupil_ac : List ℚ) (meas : ℕ → Option (List ℚ)) :
    AlgState × Except String (List (List ℚ)) :=
  match create_control_matrix pinv numActuators noZernikeModes pokeSteps pupil_ac meas with
  | Except.error e => (st, Except.error e)
  | Except.ok M => ({ st with controlMatrix := some M }, Except.ok M)

/-! ### Fourier-filter construction (aoAlg.py `make_fft_filter`) -/

/-- Propagating Python exception objects relevant to `make_fft_filter`. -/
inductive PyError where
  | typeError (msg : String)
  | valueError (msg : String)
  | exception (msg : String)
  deriving DecidableEq

/-- Length of the Python slice `a[s:e]` on an axis of length `n`: negative
bounds count from the end, then both are clipped into `[0, n]`. -/
def sliceLen (n s e : ℤ) : ℤ :=
  let sc := if s < 0 then max 0 (n + s) else min s n
  let ec := if e < 0 then max 0 (n + e) else min e n
  max 0 (ec - sc)

/-- Whether `fftarray[y-25:y+25, x-25:x+25]` on an `n × n` spectrum yields a
full 50×50 block; when it does not, the assignment into the preallocated
50×50 `window` fails to broadcast and numpy raises ValueError.
`maxpoint = (x, y)` as in the source (line 136). -/
def windowFits (n : ℤ) (maxpoint : ℤ × ℤ) : Bool :=
  decide (sliceLen n (maxpoint.2 - 25) (maxpoint.2 + 25) = 50 ∧
          sliceLen n (maxpoint.1 - 25) (maxpoint.1 + 25) = 50)

/-- The 10-iteration peak-refinement loop of `make_fft_filter`
(lines 156-167).  Each iteration first extracts the 50×50 window around the
candidate; when the slice runs off the spectrum edge the broadcast ValueError
is caught and the handler of lines 159-160 executes
`raise Exception("Interferometer stripes are too fine. Please make them
coarser").with_traceback()` — but `with_traceback` called WITHOUT its
required argument itself raises `TypeError: with_traceback() takes exactly
one argument (0 given)`, and that TypeError is what actually propagates (the
descriptive Exception object is built but never raised).  The thresholded,
Gaussian-weighted centre-of-mass update of lines 161-167 is abstracted by
`com`. -/
def refine_loop (n : ℤ) (com : ℤ × ℤ → ℤ × ℤ) : ℕ → ℤ × ℤ → Except PyError (ℤ × ℤ)
  | 0, maxpoint => Except.ok maxpoint
  | k + 1, maxpoint =>
    if windowFits n maxpoint then refine_loop n com k (com maxpoint)
    else Except.error
      (PyError.typeError "with_traceback() takes exactly one argument (0 given)")

/-- aoAlg.py, `make_fft_filter` (lines 112-183) from the located first-order
candidate `test_point` on: the refinement loop, then — only if it completes —
the assignment `self.fft_filter = ...` (lines 169-181) of the sin²-profile
window placed around the refined peak; that window construction and the
optional final ifftshift are abstracted by `buildFilter`.  The pair returned
is (context state after the call, outcome). -/
def make_fft_filter_model (st : AlgState) (n : ℤ) (test_point : ℤ × ℤ)
    (com : ℤ × ℤ → ℤ × ℤ) (buildFilter : ℤ × ℤ → List (List ℚ)) :
    AlgState × Except PyError (List (List ℚ)) :=
  match refine_loop n com 10 test_point with
  | Except.error e => (st, Except.error e)
  | Except.ok maxpoint =>
    ({ st with fft_filter := some (buildFilter maxpoint) },
      Except.ok (buildFilter maxpoint))

/-! ### Device state (aoDev.py `AdaptiveOpticsDevice`) -/

/-- The device-held artifacts of aoDev.py lines 62-70: region of interest,
pupil mask, Fourier filter, control matrix. -/
structure DevState where
  roi : Option (ℤ × ℤ × ℕ)
  mask : Option (List (List Bool))
  fft_filter : Option (List (List ℚ))
  controlMatrix : Option (List (List ℚ))
  deriving DecidableEq

/-- aoDev.py, `set_roi` (lines 142-159): store the new ROI, rebuild the pupil
mask for the new radius (`self.mask = aoAlg.make_mask(radius)`), and erase the
Fourier filter (`self.fft_filter = None`).  No other field is written — in
particular `self.controlMatrix` is not touched by this method. -/
def set_roi (s : DevState) (y0 x0 : ℤ) (radius : ℕ) : DevState :=
  { s with roi := some (y0, x0, radius)
           mask := some (make_mask radius)
           fft_filter := none }

/-! ### Sensorless modal estimation (aoAlg.py `get_zernike_modes_sensorless`) -/

/-- numpy 1-D indexed assignment `v[idx] = x`: a negative index counts from
the end of the array; an index outside `[-len, len)` raises IndexError. -/
def npSet (v : List ℚ) (idx : ℤ) (x : ℚ) : Except String (List ℚ) :=
  let k := if idx < 0 then (v.length : ℤ) + idx else idx
  if 0 ≤ k ∧ k < (v.length : ℤ) then Except.ok (v.set k.toNat x)
  else Except.error "IndexError"

/-- The mode loop of `get_zernike_modes_sensorless` (lines 410-415): for the
`ii`-th selected Noll index `m`, write the estimated amplitude — the
`find_zernike_amp_sensorless` result on the corresponding image-stack slice,
abstracted by `amp ii` — into `coef[m - 1]`. -/
def gzms_loop (amp : ℕ → ℚ) : List ℕ → ℕ → List ℚ → Except String (List ℚ)
  | [], _, coef => Except.ok coef
  | m :: rest, ii, coef =>
    match npSet coef ((m : ℤ) - 1) (amp ii) with
    | Except.error e => Except.error e
    | Except.ok coef2 => gzms_loop amp rest (ii + 1) coef2

/-- aoAlg.py, `get_zernike_modes_sensorless` (lines 405-417):
`coef = np.zeros(full_zernike_applied.shape[1])` — `dim` here — followed by
the mode loop over the entries of `nollZernike`. -/
def get_zernike_modes_sensorless (dim : ℕ) (nollZernike : List ℕ) (amp : ℕ → ℚ) :
    Except String (List ℚ) :=
  gzms_loop amp nollZernike 0 (List.replicate dim 0)

/-! ### Fourier sharpness metric (aoAlg.py `measure_fourier_metric`) -/

/-- aoAlg.py, `measure_fourier_metric` (lines 354-358): the diffraction
cutoff radius in pixels,
`((1/((1.22*wavelength)/(2*NA))) / (1/(2*pixel_size))) * (shape[0]/2)`. -/
def OTF_outer_rad (wavelength NA pixel_size : ℚ) (size : ℕ) : ℚ :=
  1 / ((61/50) * wavelength / (2 * NA)) / (1 / (2 * pixel_size)) * ((size : ℚ) / 2)

/-- `radii = np.linspace(0.1 * OTF_outer_rad, OTF_outer_rad, num_segs + 1)`
(line 368): the `num_segs + 1` ring boundaries, equally spaced between 10%
and 100% of the cutoff radius. -/
def fourier_ring_radii (R : ℚ) (num_segs : ℕ) : List ℚ :=
  (List.range (num_segs + 1)).map (fun i : ℕ =>
    (1/10) * R + (i : ℚ) * ((9/10) * R) / (num_segs : ℚ))

/-- `np.mean(fftarray_sq[ring_mask != 0])`: mean of the power-spectrum values
at the nonzero pixels of a ring mask (0 for an empty ring, where numpy would
produce nan — a case the verified statements never touch). -/
def meanOver (P : ℕ → ℕ → ℚ) (m : List (List ℤ)) : ℚ :=
  let pts := (List.range m.length).flatMap (fun i =>
    (List.range ((m.getD i []).length)).filterMap (fun j =>
      if (m.getD i []).getD j 0 ≠ 0 then some (P i j) else none))
  pts.sum / (pts.length : ℚ)

/-- The ring loop of `measure_fourier_metric` (lines 368-373):
`for ii in range(0, num_segs - 1)` — only `num_segs - 1` of the `num_segs`
rings delimited by the `num_segs + 1` boundaries are ever visited, so the
outermost ring never contributes.  The square root of each ring's mean power
(`np.sqrt(np.mean(...))`) is abstracted by `sqrtQ`; `P` is the power
spectrum `fftarray_sq` of line 366. -/
def fourier_RMS_metrics (sqrtQ : ℚ → ℚ) (P : ℕ → ℕ → ℚ) (size : ℕ) (R : ℚ)
    (num_segs : ℕ) : List ℚ :=
  (List.range (num_segs - 1)).map (fun ii =>
    sqrtQ (meanOver P (make_ring_mask size
      ((fourier_ring_radii R num_segs).getD ii 0)
      ((fourier_ring_radii R num_segs).getD (ii + 1) 0))))

/-- aoAlg.py, `measure_fourier_metric` (lines 353-381): the straight-line fit
of log(RMS) against ring index,
`stats.linregress(range(len(RMS_metrics)), np.log(RMS_metrics))`, returned as
the (slope, intercept) pair.  The logarithm applied to the measured RMS data
is abstracted by `logQ`; the remaining linregress statistics (r, log p,
stderr) of the returned 5-vector are not modelled. -/
def measure_fourier_metric (sqrtQ logQ : ℚ → ℚ) (P : ℕ → ℕ → ℚ) (size : ℕ)
    (wavelength NA pixel_size : ℚ) (num_segs : ℕ) : ℚ × ℚ :=
  let RMS := fourier_RMS_metrics sqrtQ P size
    (OTF_outer_rad wavelength NA pixel_size size) num_segs
  let xs := (List.range RMS.length).map (fun i : ℕ => (i : ℚ))
  (linregressSlope xs (RMS.map logQ), linregressIntercept xs (RMS.map logQ))

/-! ### General helper lemmas -/

/-- Reading an entry of a `(List.range n).map f` grid row. -/
theorem getD_map_range {α : Type} (f : ℕ → α) {n i : ℕ} (d : α) (h : i < n) :
    ((List.range n).map f).getD i d = f i := by
  have hlen : i < ((List.range n).map f).length := by simpa using h
  rw [List.getD_eq_getElem _ _ hlen, List.getElem_map, List.getElem_range]

theorem maskGet_make_mask {radius i j : ℕ} (hi : i < 2 * radius) (hj : j < 2 * radius) :
    maskGet (make_mask radius) i j = sqrtLtQ (dist2Q radius i j) radius := by
  unfold maskGet make_mask
  rw [getD_map_range _ _ hi, getD_map_range _ _ hj]

theorem ringGet_make_ring_mask {size i j : ℕ} (inner_rad outer_rad : ℚ)
    (hi : i < 2 * (size / 2)) (hj : j < 2 * (size / 2)) :
    ringGet (make_ring_mask size inner_rad outer_rad) i j =
      (if sqrtLtQ (dist2Q (size / 2) i j) outer_rad then (1 : ℤ) else 0) *
      (((if sqrtLtQ (dist2Q (size / 2) i j) inner_rad then (1 : ℤ) else 0) - 1) * (-1)) := by
  unfold ringGet make_ring_mask
  rw [getD_map_range _ _ hi, getD_map_range _ _ hj]

/-! ### Claim C1 — command mapper conform-then-multiply -/

/-- C1: the claim states that `ac_pos_from_zernike` truncates a too-long modal
vector, zero-pads a too-short one on the right, and returns the control-matrix
product.  The truncation half is real, but for a short vector the code
computes a NEGATIVE pad length and discards the `np.pad` result, so the call
raises ValueError instead of padding: evaluated at the mode-dimension-2
control matrix [[1,0],[0,1]] with the length-1 vector [3] the code errors,
while the specified conform-then-multiply rule (second conjunct) yields
[3, 0].  The third conjunct shows the truncation branch behaving as claimed
at the length-3 vector [3,5,7]. -/
theorem ac_pos_from_zernike_short_vector_bug :
    ac_pos_from_zernike [[1, 0], [0, 1]] [3] 2 =
      Except.error "ValueError: index cannot contain negative values" ∧
    ac_pos_from_zernike_spec [[1, 0], [0, 1]] [3] = [3, 0] ∧
    ac_pos_from_zernike [[1, 0], [0, 1]] [3, 5, 7] 2 = Except.ok [3, 5] := by
  refine ⟨rfl, ?_, ?_⟩
  · simp [ac_pos_from_zernike_spec, dotQ]
  · simp [ac_pos_from_zernike, acDotCheck, dotQ]

/-! ### Claim C4 — refinement-window failure raises an opaque TypeError -/

/-- C4: when the 50×50 peak-refinement window runs off the spectrum edge the
claim expects an error naming the fringe spacing as the cause.  What actually
propagates is the opaque `TypeError: with_traceback() takes exactly one
argument (0 given)`, because the handler of aoAlg.py lines 159-160 calls
`with_traceback()` without its required argument; the descriptive
"Interferometer stripes are too fine" exception object is constructed but
never raised.  Evaluated on a 100×100 spectrum with the candidate peak at
(0, 0), i.e. within 25 pixels of the border. -/
theorem make_fft_filter_offedge_raises_typeerror :
    (make_fft_filter_model ⟨none, none, none, none⟩ 100 (0, 0) id
        (fun _ => [[1]])).2 =
      Except.error
        (PyError.typeError "with_traceback() takes exactly one argument (0 given)") :=
  rfl

/-! ### Claim C6 — set_roi regenerates the mask, resets only the filter -/

/-- C6 (counterexample): the claim states that set_roi invalidates both the
Fourier filter and the control matrix.  Starting from a state holding the
control matrix [[7]], after `set_roi 0 0 2` the control matrix is still
[[7]], not unset. -/
theorem set_roi_keeps_controlMatrix :
    (set_roi { roi := none, mask := none, fft_filter := some [[2]],
               controlMatrix := some [[7]] } 0 0 2).controlMatrix = some [[7]] ∧
    (set_roi { roi := none, mask := none, fft_filter := some [[2]],
               controlMatrix := some [[7]] } 0 0 2).controlMatrix ≠ none := by
  exact ⟨rfl, by decide⟩

/-- C6 (amended): after set_roi(y0, x0, radius) the stored ROI is the new
triple, the pupil mask is regenerated for the new radius, and the Fourier
filter is reset to the unset state — but the control matrix is left
unchanged (the code never resets it). -/
theorem set_roi_effects (s : DevState) (y0 x0 : ℤ) (radius : ℕ) :
    (set_roi s y0 x0 radius).mask = some (make_mask radius) ∧
    (set_roi s y0 x0 radius).fft_filter = none ∧
    (set_roi s y0 x0 radius).roi = some (y0, x0, radius) ∧
    (set_roi s y0 x0 radius).controlMatrix = s.controlMatrix :=
  ⟨rfl, rfl, rfl, rfl⟩

/-! ### Claim C7 — pupil mask determinism and rotation symmetry -/

/-- C7 (counterexample): the claimed 180°-rotation symmetry about the array
centre, mask[i][j] = mask[2r-1-i][2r-1-j], fails at r = 2, i = 0, j = 2:
the (0,2) entry is False while the (3,1) entry is True.  The disk is centred
on index r (where arange(-r, r) vanishes), half a pixel away from the array
centre. -/
theorem make_mask_not_180_symmetric :
    maskGet (make_mask 2) 0 2 = false ∧
    maskGet (make_mask 2) (2 * 2 - 1 - 0) (2 * 2 - 1 - 2) = true := by
  refine ⟨?_, ?_⟩
  · rw [maskGet_make_mask (by norm_num) (by norm_num)]
    unfold sqrtLtQ dist2Q
    rw [decide_eq_false_iff_not]
    push_neg
    intro h
    norm_num
  · rw [maskGet_make_mask (by norm_num) (by norm_num)]
    unfold sqrtLtQ dist2Q
    rw [decide_eq_true_eq]
    norm_num

/-- C7 (amended): make_mask is deterministic (equal radii give equal masks),
and the mask is symmetric under the 180° rotation about the centre pixel
(r, r): mask[i][j] = mask[2r-i][2r-j] for all 1 ≤ i, j ≤ 2r-1.  Only the
rotation centre differs from the claim (indices 2r-i in place of 2r-1-i). -/
theorem make_mask_symmetric_about_center_pixel (r i j : ℕ)
    (hi1 : 1 ≤ i) (hi2 : i < 2 * r) (hj1 : 1 ≤ j) (hj2 : j < 2 * r) :
    make_mask r = make_mask r ∧
    maskGet (make_mask r) i j = maskGet (make_mask r) (2 * r - i) (2 * r - j) := by
  refine ⟨rfl, ?_⟩
  have hi3 : 2 * r - i < 2 * r := by omega
  have hj3 : 2 * r - j < 2 * r := by omega
  rw [maskGet_make_mask hi2 hj2, maskGet_make_mask hi3 hj3]
  have hd : dist2Q r (2 * r - i) (2 * r - j) = dist2Q r i j := by
    unfold dist2Q
    rw [Nat.cast_sub hi2.le, Nat.cast_sub hj2.le]
    push_cast
    ring
  rw [hd]

/-- Witness for C7's amended theorem at r = 2, i = j = 1. -/
theorem make_mask_symmetric_witness :
    make_mask 2 = make_mask 2 ∧
    maskGet (make_mask 2) 1 1 = maskGet (make_mask 2) (2 * 2 - 1) (2 * 2 - 1) :=
  make_mask_symmetric_about_center_pixel 2 1 1 (by decide) (by decide) (by decide)
    (by decide)

/-! ### Claim C8 — make_fft_filter leaves the filter untouched on failure -/

/-- C8: if the peak-refinement loop of make_fft_filter raises, the stored
fft_filter of the algorithm context is exactly what it was before the call
(the `self.fft_filter = ...` assignment of line 169 sits after the loop), and
the raised error is the loop's error. -/
theorem make_fft_filter_error_atomic (st : AlgState) (n : ℤ) (test_point : ℤ × ℤ)
    (com : ℤ × ℤ → ℤ × ℤ) (buildFilter : ℤ × ℤ → List (List ℚ)) (e : PyError)
    (h : refine_loop n com 10 test_point = Except.error e) :
    (make_fft_filter_model st n test_point com buildFilter).1.fft_filter =
      st.fft_filter ∧
    (make_fft_filter_model st n test_point com buildFilter).2 = Except.error e := by
  unfold make_fft_filter_model
  rw [h]
  exact ⟨rfl, rfl⟩

/-- Witness for C8 on a 100×100 spectrum with candidate peak (0,0) and a
context whose filter field holds [[5]]: the field still holds [[5]] after the
failing call. -/
theorem make_fft_filter_error_atomic_witness :
    (make_fft_filter_model ⟨none, some [[5]], none, none⟩ 100 (0, 0) id
        (fun _ => [[1]])).1.fft_filter = some [[5]] ∧
    (make_fft_filter_model ⟨none, some [[5]], none, none⟩ 100 (0, 0) id
        (fun _ => [[1]])).2 =
      Except.error
        (PyError.typeError "with_traceback() takes exactly one argument (0 given)") :=
  make_fft_filter_error_atomic ⟨none, some [[5]], none, none⟩ 100 (0, 0) id
    (fun _ => [[1]])
    (PyError.typeError "with_traceback() takes exactly one argument (0 given)")
    (by decide)

/-! ### Claim C2 — flatten_phase keep-best rule -/

/-- C2 (counterexample): the claim states the retained best actuator vector is
overwritten only on strict RMS improvement, so an iteration whose RMS equals
the running best should leave it unchanged.  Run with control matrix [[1]],
one actuator, no ignored modes, initial RMS 1 and a single iteration measuring
modal amplitudes [1/4] with RMS 1 (equal to the running best, never a strict
improvement): the claim predicts the initial best vector [1/2] is returned,
but the equality branch of aoDev.py line 498 overwrites the best vector and
[1/4] is returned. -/
theorem flatten_phase_equal_rms_overwrites_best :
    flatten_phase [[1]] 1 [1] 1 [([1/4], 1)] = Except.ok [1/4] ∧
    Except.ok [(1/4 : ℚ)] ≠ (Except.ok [(1/2 : ℚ)] : Except String (List ℚ)) := by
  constructor
  · norm_num [flatten_phase, flatten_loop, flatten_step, flattenInit, set_phase,
      ac_pos_from_zernike, acDotCheck, dotQ, send_clamp, clamp01]
  · intro h
    have := Except.ok.inj h
    simp at this

/-- C2 (amended): in each flatten_phase iteration, with `flat` the actuator
vector actually sent (set_phase of the masked modal measurement, offset by the
running best), the best RMS is overwritten only on strict improvement, a
strictly worse RMS changes nothing, and an RMS EQUAL to the running best
overwrites the best actuator vector with `flat` while keeping the best RMS
and best modal amplitudes; after the iteration budget is exhausted the
retained best vector is clamped into [0,1] in place by `send` and that
vector is both sent and returned. -/
theorem flatten_phase_keep_best (controlMatrix : List (List ℚ)) (numActuators : ℕ)
    (z_modes_ignore : List ℚ) (m0 : List ℚ × ℚ) (s : FlattenS) (flat : List ℚ)
    (init_rms : ℚ) (meas : List (List ℚ × ℚ)) (sfin : FlattenS)
    (hsp : set_phase controlMatrix numActuators
        (List.zipWith (· * ·) m0.1 z_modes_ignore) s.best_flat = Except.ok flat)
    (hloop : flatten_loop controlMatrix numActuators z_modes_ignore meas
        (flattenInit controlMatrix numActuators init_rms) = Except.ok sfin) :
    flatten_step controlMatrix numActuators z_modes_ignore m0 s =
      Except.ok
        (if m0.2 < s.best_rms then
          { best_flat := flat,
            best_z := List.zipWith (· * ·) m0.1 z_modes_ignore,
            best_rms := m0.2 }
        else if s.best_rms < m0.2 then s
        else { s with best_flat := flat }) ∧
    flatten_phase controlMatrix numActuators z_modes_ignore init_rms meas =
      Except.ok (send_clamp sfin.best_flat) := by
  constructor
  · simp only [flatten_step]
    rw [hsp]
  · simp only [flatten_phase]
    rw [hloop]

/-- Witness for C2's amended theorem at the counterexample's inputs: the
equal-RMS iteration sets the best vector to [1/4] while keeping the best RMS,
and the run returns the clamped final best vector. -/
theorem flatten_phase_keep_best_witness :
    flatten_step [[1]] 1 [1] ([1/4], 1) (flattenInit [[1]] 1 1) =
      Except.ok { best_flat := [1/4], best_z := [0], best_rms := 1 } ∧
    flatten_phase [[1]] 1 [1] 1 [([1/4], 1)] =
      Except.ok (send_clamp [1/4]) := by
  have h := flatten_phase_keep_best [[1]] 1 [1] ([1/4], 1) (flattenInit [[1]] 1 1)
    [1/4] 1 [([1/4], 1)] { best_flat := [1/4], best_z := [0], best_rms := 1 }
    (by norm_num [set_phase, ac_pos_from_zernike, acDotCheck, dotQ, send_clamp,
      clamp01, flattenInit])
    (by norm_num [flatten_loop, flatten_step, flattenInit, set_phase,
      ac_pos_from_zernike, acDotCheck, dotQ, send_clamp, clamp01])
  refine ⟨h.1.trans ?_, h.2⟩
  norm_num [flattenInit, send_clamp, clamp01]

/-! ### Claim C3 — calibration aborts on an actuator with too few samples -/

/-- If the first `k` actuators processed by the loop are fine (outside the
pupil, or with at least two retained samples) and actuator `start + k` is in
the pupil with fewer than two retained samples, the loop raises the exception
naming `start + k`. -/
theorem ccmGo_error_at (noZernikeModes : ℕ) (pokeSteps : List ℚ)
    (pupil_ac : List ℚ) (meas : ℕ → Option (List ℚ)) (k : ℕ) :
    ∀ start cnt : ℕ, k < cnt →
      pupil_ac.getD (start + k) 0 = 1 →
      (actuatorRetained pokeSteps meas (start + k)).length < 2 →
      (∀ d : ℕ, d < k → pupil_ac.getD (start + d) 0 = 1 →
        2 ≤ (actuatorRetained pokeSteps meas (start + d)).length) →
      ccmGo noZernikeModes pokeSteps pupil_ac meas start cnt =
        Except.error (ccmErrMsg (start + k)) := by
  induction k with
  | zero =>
    intro start cnt hk hpup hfail _
    obtain ⟨c, rfl⟩ : ∃ c, cnt = c + 1 := ⟨cnt - 1, by omega⟩
    rw [Nat.add_zero] at hpup hfail
    unfold ccmGo
    rw [if_pos hpup, if_pos hfail, Nat.add_zero]
  | succ k ih =>
    intro start cnt hk hpup hfail hbef
    obtain ⟨c, rfl⟩ : ∃ c, cnt = c + 1 := ⟨cnt - 1, by omega⟩
    have hrec := ih (start + 1) c (by omega)
      (by rw [show start + 1 + k = start + (k + 1) from by omega]; exact hpup)
      (by rw [show start + 1 + k = start + (k + 1) from by omega]; exact hfail)
      (by intro d hd hp
          rw [show start + 1 + d = start + (d + 1) from by omega]
          exact hbef (d + 1) (by omega)
            (by rw [show start + (d + 1) = start + 1 + d from by omega]; exact hp))
    unfold ccmGo
    by_cases hp : pupil_ac.getD start 0 = 1
    · have hok : ¬ (actuatorRetained pokeSteps meas start).length < 2 := by
        have := hbef 0 (by omega)
        rw [Nat.add_zero] at this
        have h2 := this hp
        omega
      rw [if_pos hp, if_neg hok, hrec,
        show start + 1 + k = start + (k + 1) from by omega]
    · rw [if_neg hp, hrec, show start + 1 + k = start + (k + 1) from by omega]

/-- C3: if actuator `ii` is included in the pupil and ends up with fewer than
two retained poke samples (all earlier included actuators having at least
two, so the loop reaches `ii`), the whole calibration fails with the
exception naming actuator `ii + 1`, and no control matrix is produced or
stored: the context state is returned untouched. -/
theorem create_control_matrix_insufficient_samples (st : AlgState)
    (pinv : List (List ℚ) → List (List ℚ)) (numActuators noZernikeModes : ℕ)
    (pokeSteps : List ℚ) (pupil_ac : List ℚ) (meas : ℕ → Option (List ℚ)) (ii : ℕ)
    (hlt : ii < numActuators)
    (hpup : pupil_ac.getD ii 0 = 1)
    (hfail : (actuatorRetained pokeSteps meas ii).length < 2)
    (hbefore : ∀ d : ℕ, d < ii → pupil_ac.getD d 0 = 1 →
      2 ≤ (actuatorRetained pokeSteps meas d).length) :
    create_control_matrix pinv numActuators noZernikeModes pokeSteps pupil_ac meas =
      Except.error (ccmErrMsg ii) ∧
    create_control_matrix_state st pinv numActuators noZernikeModes pokeSteps
      pupil_ac meas = (st, Except.error (ccmErrMsg ii)) := by
  have h := ccmGo_error_at noZernikeModes pokeSteps pupil_ac meas ii 0 numActuators
    hlt (by rw [Nat.zero_add]; exact hpup) (by rw [Nat.zero_add]; exact hfail)
    (by intro d hd hp
        rw [Nat.zero_add]
        exact hbefore d hd (by rw [Nat.zero_add] at hp; exact hp))
  rw [Nat.zero_add] at h
  constructor
  · unfold create_control_matrix
    rw [h]
  · unfold create_control_matrix_state create_control_matrix
    rw [h]

/-- Witness for C3: one in-pupil actuator whose every poke frame is discarded
(zero retained samples) makes the calibration fail with the message naming
actuator 1, leaving the context untouched. -/
theorem create_control_matrix_insufficient_witness :
    create_control_matrix id 1 1 [0, 1] [1] (fun _ => none) =
      Except.error (ccmErrMsg 0) ∧
    create_control_matrix_state ⟨none, none, none, none⟩ id 1 1 [0, 1] [1]
      (fun _ => none) = (⟨none, none, none, none⟩, Except.error (ccmErrMsg 0)) :=
  create_control_matrix_insufficient_samples ⟨none, none, none, none⟩ id 1 1 [0, 1]
    [1] (fun _ => none) 0 (by norm_num) rfl
    (by decide)
    (fun d hd => absurd hd (Nat.not_lt_zero d))

/-! ### Claim C9 — sensorless coefficient vector length and support -/

/-- For an in-range 1-based Noll index `m`, the numpy assignment
`coef[m - 1] = x` succeeds and is `List.set` at position `m - 1`. -/
theorem npSet_ok (coef : List ℚ) (m : ℕ) (x : ℚ) (h1 : 1 ≤ m)
    (h2 : m ≤ coef.length) :
    npSet coef ((m : ℤ) - 1) x = Except.ok (coef.set (m - 1) x) := by
  unfold npSet
  have hneg : ¬ ((m : ℤ) - 1 < 0) := by omega
  have hin : (0 : ℤ) ≤ (m : ℤ) - 1 ∧ (m : ℤ) - 1 < (coef.length : ℤ) := by omega
  simp only [if_neg hneg, if_pos hin]
  rw [show ((m : ℤ) - 1).toNat = m - 1 from by omega]

/-- The mode loop writes only at the selected positions: it returns
successfully when every selected Noll index is in range, preserves the
vector's length, and leaves every entry whose 1-based index is not selected
exactly as it was. -/
theorem gzms_loop_ok (amp : ℕ → ℚ) (l : List ℕ) :
    ∀ (ii : ℕ) (coef : List ℚ), (∀ m ∈ l, 1 ≤ m ∧ m ≤ coef.length) →
      ∃ out, gzms_loop amp l ii coef = Except.ok out ∧
        out.length = coef.length ∧
        ∀ j : ℕ, (j + 1) ∉ l → out.getD j 0 = coef.getD j 0 := by
  induction l with
  | nil => exact fun ii coef _ => ⟨coef, rfl, rfl, fun j _ => rfl⟩
  | cons m rest ih =>
    intro ii coef h
    have hm := h m (List.mem_cons_self m rest)
    have hstep : gzms_loop amp (m :: rest) ii coef =
        gzms_loop amp rest (ii + 1) (coef.set (m - 1) (amp ii)) := by
      conv_lhs => rw [gzms_loop]
      rw [npSet_ok coef m (amp ii) hm.1 hm.2]
    have hlen2 : (coef.set (m - 1) (amp ii)).length = coef.length :=
      List.length_set coef (m - 1) (amp ii)
    obtain ⟨out, hout, hlen, hpres⟩ := ih (ii + 1) (coef.set (m - 1) (amp ii))
      (by intro x hx
          have := h x (List.mem_cons_of_mem _ hx)
          rwa [hlen2])
    refine ⟨out, hstep.trans hout, hlen.trans hlen2, ?_⟩
    intro j hj
    have hj1 : j + 1 ≠ m := fun hh => hj (hh ▸ List.mem_cons_self m rest)
    have hj2 : (j + 1) ∉ rest := fun hh => hj (List.mem_cons_of_mem _ hh)
    rw [hpres j hj2, List.getD_eq_getD_get?, List.getD_eq_getD_get?,
      List.get?_eq_getElem?, List.get?_eq_getElem?,
      List.getElem?_set_ne (by omega : m - 1 ≠ j)]

/-- C9: when every selected Noll index lies in `[1, dim]`, the sensorless
decomposition returns a coefficient vector of length `dim` — the mode
dimension of the applied-amplitude table — that is zero at every position
whose 1-based index is not in the `nollZernike` selection: only positions
`nollZernike[i] - 1` are ever written. -/
theorem get_zernike_modes_sensorless_support (dim : ℕ) (nollZernike : List ℕ)
    (amp : ℕ → ℚ) (h : ∀ m ∈ nollZernike, 1 ≤ m ∧ m ≤ dim) :
    ∃ coef, get_zernike_modes_sensorless dim nollZernike amp = Except.ok coef ∧
      coef.length = dim ∧
      ∀ j : ℕ, (j + 1) ∉ nollZernike → coef.getD j 0 = 0 := by
  obtain ⟨out, hout, hlen, hpres⟩ := gzms_loop_ok amp nollZernike 0
    (List.replicate dim 0) (by simpa using h)
  refine ⟨out, hout, by simpa using hlen, ?_⟩
  intro j hj
  rw [hpres j hj]
  rcases Nat.lt_or_ge j dim with hlt | hge
  · rw [List.getD_eq_getElem _ _ (by simpa using hlt)]
    simp
  · rw [List.getD_eq_default _ _ (by simpa using hge)]

/-- Witness for C9 at dim = 3 with selection [2]: the returned vector has
length 3 and is zero away from position 1. -/
theorem get_zernike_modes_sensorless_support_witness :
    ∃ coef, get_zernike_modes_sensorless 3 [2] (fun _ => 5) = Except.ok coef ∧
      coef.length = 3 ∧
      ∀ j : ℕ, (j + 1) ∉ [2] → coef.getD j 0 = 0 :=
  get_zernike_modes_sensorless_support 3 [2] (fun _ => 5) (by decide)

/-! ### Claim C10 — ring mask membership and disjointness -/

/-- An in-grid ring-mask entry is nonzero exactly when the pixel's squared
distance from the centre pixel lies in `[inner², outer²)`; for nonnegative
radii this says the Euclidean distance `d` satisfies `inner ≤ d < outer`. -/
theorem ringGet_iff (size i j : ℕ) (inner_rad outer_rad : ℚ)
    (h0 : 0 ≤ inner_rad) (h1 : inner_rad ≤ outer_rad)
    (hi : i < 2 * (size / 2)) (hj : j < 2 * (size / 2)) :
    ringGet (make_ring_mask size inner_rad outer_rad) i j ≠ 0 ↔
      inner_rad ^ 2 ≤ dist2Q (size / 2) i j ∧
        dist2Q (size / 2) i j < outer_rad ^ 2 := by
  rw [ringGet_make_ring_mask inner_rad outer_rad hi hj]
  have hd2nn : 0 ≤ dist2Q (size / 2) i j := by unfold dist2Q; positivity
  unfold sqrtLtQ
  constructor
  · intro hne
    by_cases ho : (0 < outer_rad ∧ dist2Q (size / 2) i j < outer_rad * outer_rad)
    · by_cases hin : (0 < inner_rad ∧ dist2Q (size / 2) i j < inner_rad * inner_rad)
      · exact absurd (by simp [ho, hin]) hne
      · refine ⟨?_, by rw [sq]; exact ho.2⟩
        rcases eq_or_lt_of_le h0 with heq | hpos
        · rw [← heq]
          simpa using hd2nn
        · have hnotlt : ¬ dist2Q (size / 2) i j < inner_rad * inner_rad :=
            fun hdd => hin ⟨hpos, hdd⟩
          rw [sq]
          exact le_of_not_lt hnotlt
    · exact absurd (by simp [ho]) hne
  · rintro ⟨hge, hlt⟩
    have ho : 0 < outer_rad := by nlinarith
    have hin : ¬ (0 < inner_rad ∧ dist2Q (size / 2) i j < inner_rad * inner_rad) := by
      rintro ⟨hp, hd⟩
      rw [sq] at hge
      linarith
    rw [sq] at hlt
    simp [ho, hlt, hin]

/-- C10: for radii `0 ≤ inner ≤ outer`, an in-grid pixel of
`make_ring_mask size inner outer` is marked exactly when its squared distance
from the centre pixel is at least `inner²` and strictly below `outer²` —
i.e. its Euclidean distance `d` from the grid centre satisfies
`inner ≤ d < outer` — and consequently two rings built from consecutive
boundaries of one increasing radius sequence (`inner ≤ outer ≤ c ≤ d`) never
mark the same pixel. -/
theorem make_ring_mask_char (size i j : ℕ) (inner_rad outer_rad c d : ℚ)
    (h0 : 0 ≤ inner_rad) (h1 : inner_rad ≤ outer_rad) (h2 : outer_rad ≤ c)
    (h3 : c ≤ d) (hi : i < 2 * (size / 2)) (hj : j < 2 * (size / 2)) :
    (ringGet (make_ring_mask size inner_rad outer_rad) i j ≠ 0 ↔
      inner_rad ^ 2 ≤ dist2Q (size / 2) i j ∧
        dist2Q (size / 2) i j < outer_rad ^ 2) ∧
    ¬(ringGet (make_ring_mask size inner_rad outer_rad) i j ≠ 0 ∧
      ringGet (make_ring_mask size c d) i j ≠ 0) := by
  have hA := ringGet_iff size i j inner_rad outer_rad h0 h1 hi hj
  have hB := ringGet_iff size i j c d (h0.trans (h1.trans h2)) h3 hi hj
  refine ⟨hA, ?_⟩
  rintro ⟨m1, m2⟩
  obtain ⟨_, hlt⟩ := hA.mp m1
  obtain ⟨hge, _⟩ := hB.mp m2
  have hsq : outer_rad ^ 2 ≤ c ^ 2 := by nlinarith
  linarith

/-- Witness for C10 on a 4×4 grid at pixel (1,2) with the radius sequence
1 ≤ 2 ≤ 2 ≤ 3. -/
theorem make_ring_mask_char_witness :
    ((ringGet (make_ring_mask 4 1 2) 1 2 ≠ 0 ↔
      (1 : ℚ) ^ 2 ≤ dist2Q (4 / 2) 1 2 ∧ dist2Q (4 / 2) 1 2 < (2 : ℚ) ^ 2) ∧
    ¬(ringGet (make_ring_mask 4 1 2) 1 2 ≠ 0 ∧
      ringGet (make_ring_mask 4 2 3) 1 2 ≠ 0)) :=
  make_ring_mask_char 4 1 2 1 2 2 3 (by norm_num) (by norm_num) (by norm_num)
    (by norm_num) (by norm_num) (by norm_num)

/-! ### Claim C5 — Fourier metric ring partition and fit -/

/-- C5 (counterexample): with 3 rings requested, only 2 RMS values are
computed and fed to the fit — the loop of aoAlg.py line 370 runs over
`range(0, num_segs - 1)`, one short of the claimed `num_segs` rings. -/
theorem measure_fourier_metric_ring_count_cex :
    (fourier_RMS_metrics id (fun _ _ => 1) 4 2 3).length = 2 ∧
    (fourier_RMS_metrics id (fun _ _ => 1) 4 2 3).length ≠ 3 := by
  constructor <;> simp [fourier_RMS_metrics]

/-- C5 (amended): `measure_fourier_metric` lays `num_segs + 1` equally spaced
boundaries over the annulus between 10% and 100% of the diffraction cutoff
radius — so the annulus is partitioned into `num_segs` equal-width rings,
the gap between consecutive boundaries being `0.9·R/num_segs` — but the RMS
loop visits only the first `num_segs - 1` rings (ring `ii` spanning
boundaries `ii` and `ii + 1`; the outermost ring is never used), and the
straight-line fit of log(RMS) against ring index therefore runs over those
`num_segs - 1` values. -/
theorem measure_fourier_metric_rings (sqrtQ logQ : ℚ → ℚ) (P : ℕ → ℕ → ℚ)
    (size num_segs : ℕ) (wavelength NA pixel_size R : ℚ)
    (hR : R = OTF_outer_rad wavelength NA pixel_size size) (h1 : 1 ≤ num_segs) :
    (fourier_ring_radii R num_segs).length = num_segs + 1 ∧
    (∀ i : ℕ, i < num_segs →
      (fourier_ring_radii R num_segs).getD (i + 1) 0 -
        (fourier_ring_radii R num_segs).getD i 0 = (9 / 10) * R / num_segs) ∧
    (fourier_RMS_metrics sqrtQ P size R num_segs).length = num_segs - 1 ∧
    (∀ ii : ℕ, ii < num_segs - 1 →
      (fourier_RMS_metrics sqrtQ P size R num_segs).getD ii 0 =
        sqrtQ (meanOver P (make_ring_mask size
          ((fourier_ring_radii R num_segs).getD ii 0)
          ((fourier_ring_radii R num_segs).getD (ii + 1) 0)))) ∧
    measure_fourier_metric sqrtQ logQ P size wavelength NA pixel_size num_segs =
      (linregressSlope ((List.range (num_segs - 1)).map (fun i : ℕ => (i : ℚ)))
          ((fourier_RMS_metrics sqrtQ P size R num_segs).map logQ),
        linregressIntercept ((List.range (num_segs - 1)).map (fun i : ℕ => (i : ℚ)))
          ((fourier_RMS_metrics sqrtQ P size R num_segs).map logQ)) := by
  subst hR
  have hn : ((num_segs : ℚ)) ≠ 0 := Nat.cast_ne_zero.mpr (by omega)
  refine ⟨by simp [fourier_ring_radii], ?_, by simp [fourier_RMS_metrics], ?_, ?_⟩
  · intro i hilt
    unfold fourier_ring_radii
    rw [getD_map_range _ _ (by omega : i + 1 < num_segs + 1),
      getD_map_range _ _ (by omega : i < num_segs + 1)]
    push_cast
    field_simp
    ring
  · intro ii hii
    unfold fourier_RMS_metrics
    rw [getD_map_range _ _ hii]
  · simp only [measure_fourier_metric]
    rw [show (fourier_RMS_metrics sqrtQ P size
        (OTF_outer_rad wavelength NA pixel_size size) num_segs).length =
          num_segs - 1 from by simp [fourier_RMS_metrics]]

/-- Witness for C5's amended theorem: 2 requested rings give 3 boundaries and
a single RMS value. -/
theorem measure_fourier_metric_rings_witness :
    (fourier_ring_radii (OTF_outer_rad 1 1 1 4) 2).length = 2 + 1 ∧
    (fourier_RMS_metrics id (fun _ _ => (1 : ℚ)) 4 (OTF_outer_rad 1 1 1 4) 2).length
      = 2 - 1 :=
  ⟨(measure_fourier_metric_rings id id (fun _ _ => 1) 4 2 1 1 1
      (OTF_outer_rad 1 1 1 4) rfl (by norm_num)).1,
   (measure_fourier_metric_rings id id (fun _ _ => 1) 4 2 1 1 1
      (OTF_outer_rad 1 1 1 4) rfl (by norm_num)).2.2.1⟩

end MicroAO
